import Mathlib

/-!
Shallow embedding of the core of the `waker` repository (Wake-on-LAN tooling):

* MAC-address parsing and formatting (`wakeonlan/src/types.rs`, mirrored in the
  `waker` crate),
* magic-packet construction (`create_magic_packet_impl` in
  `waker/src/lib.rs` and `wakeonlan/src/lib.rs`),
* byte-slice conversions (`AsMacBytes`, `TryFrom<&[u8]>`),
* the fuzzy alias resolver and duplicate check of `waker-cli/src/main.rs`,
* the UDP send path, modelled as a trace over an abstract network stack.

Rust `u8` values are represented as `Nat` (all operations used here stay below
256, so no wrap-around modelling is needed), Rust strings as `List Char`, and
similarity scores (`f64` in the CLI) as `ℚ`.
-/

/-- Errors of `wakeonlan/src/errors.rs` (`MacAddressError`).  String payloads
are carried as `List Char`. -/
inductive MacAddressError where
  | InvalidByteInMac : List Char → MacAddressError
  | InvalidMacAddress : List Char → MacAddressError
  | InvalidLength : Nat → MacAddressError
deriving DecidableEq, Repr

/-- The `Mac` struct (`pub struct Mac(pub [u8; 6])`).  The payload is the list
of the six bytes of the address. -/
structure Mac where
  bytes : List Nat
deriving DecidableEq, Repr

/-- The `MagicPacket` struct (`pub struct MagicPacket(pub Vec<u8>)`). -/
structure MagicPacket where
  bytes : List Nat
deriving DecidableEq, Repr

/-- `hex_val` from `waker/src/lib.rs` (and identically in the `wakeonlan`
crate): converts one character to its hexadecimal value, rejecting anything
outside `0-9a-fA-F` with `InvalidByteInMac(c.to_string())`. -/
def hex_val (c : Char) : Except MacAddressError Nat :=
  if '0' ≤ c ∧ c ≤ '9' then .ok (c.toNat - '0'.toNat)
  else if 'a' ≤ c ∧ c ≤ 'f' then .ok (c.toNat - 'a'.toNat + 10)
  else if 'A' ≤ c ∧ c ≤ 'F' then .ok (c.toNat - 'A'.toNat + 10)
  else .error (.InvalidByteInMac [c])

/-- The value of `hex_val` on success (`0` on characters where `hex_val`
errors); used to phrase equations about the parser. -/
def hex_val_digit (c : Char) : Nat :=
  match hex_val c with
  | .ok v => v
  | .error _ => 0

/-- The characters of the Unicode `White_Space` property, which is what Rust's
`char::is_whitespace` (used by `str::trim`) tests. -/
def rust_whitespace_chars : List Char :=
  ['\t', '\n', Char.ofNat 0x0B, Char.ofNat 0x0C, '\r', ' ',
   Char.ofNat 0x85, Char.ofNat 0xA0, Char.ofNat 0x1680,
   Char.ofNat 0x2000, Char.ofNat 0x2001, Char.ofNat 0x2002, Char.ofNat 0x2003,
   Char.ofNat 0x2004, Char.ofNat 0x2005, Char.ofNat 0x2006, Char.ofNat 0x2007,
   Char.ofNat 0x2008, Char.ofNat 0x2009, Char.ofNat 0x200A,
   Char.ofNat 0x2028, Char.ofNat 0x2029, Char.ofNat 0x202F, Char.ofNat 0x205F,
   Char.ofNat 0x3000]

/-- Rust's `char::is_whitespace`. -/
def rust_is_whitespace (c : Char) : Bool :=
  rust_whitespace_chars.contains c

/-- Rust's `str::trim`: strip leading and trailing whitespace. -/
def rust_trim (s : List Char) : List Char :=
  ((s.dropWhile rust_is_whitespace).reverse.dropWhile rust_is_whitespace).reverse

/-- The number of UTF-8 bytes of a character; `str::len` in Rust counts UTF-8
bytes, and the parser reports `InvalidLength(s.len())`. -/
def char_utf8_len (c : Char) : Nat :=
  if c.toNat < 0x80 then 1
  else if c.toNat < 0x800 then 2
  else if c.toNat < 0x10000 then 3
  else 4

/-- Rust `str::len` (UTF-8 byte length) of a character list. -/
def utf8_len (s : List Char) : Nat :=
  (s.map char_utf8_len).sum

/-- The separator guard of `Mac::from_str`
(`c == ':' || c == '-' || c == '_' || c == '.'`). -/
def is_supported_separator (c : Char) : Bool :=
  c == ':' || c == '-' || c == '_' || c == '.'

/-- The loop of `Mac::from_str` (`wakeonlan/src/types.rs`, lines 133-151):
`n` is the number of bytes still to read (the Rust loop runs `i = 0..6` and
reads a separator while `i < 5`, i.e. while more than one byte remains).
`orig` is the trimmed input (for `InvalidMacAddress(s.to_string())`) and
`len` its byte length (for `InvalidLength(s.len())`).  Returns the parsed
bytes together with the unconsumed remainder of the iterator. -/
def from_str_loop (orig : List Char) (len : Nat) :
    Nat → List Char → Except MacAddressError (List Nat × List Char)
  | 0, cs => .ok ([], cs)
  | _ + 1, [] => .error (.InvalidLength len)
  | _ + 1, [_] => .error (.InvalidLength len)
  | i + 1, c1 :: c2 :: cs =>
    match hex_val c1 with
    | .error e => .error e
    | .ok h1 =>
      match hex_val c2 with
      | .error e => .error e
      | .ok h2 =>
        let val := (h1 <<< 4) ||| h2
        match i, cs with
        | 0, cs => .ok ([val], cs)
        | _ + 1, [] => .error (.InvalidLength len)
        | j + 1, c :: cs' =>
          if is_supported_separator c then
            match from_str_loop orig len (j + 1) cs' with
            | .error e => .error e
            | .ok (rest, cs'') => .ok (val :: rest, cs'')
          else .error (.InvalidMacAddress orig)

/-- `Mac::from_str` (`wakeonlan/src/types.rs`, lines 128-158): trim, parse six
two-hex-digit groups with a separator check between consecutive groups, and
fail with `InvalidLength` if characters remain. -/
def Mac.from_str (input : List Char) : Except MacAddressError Mac :=
  let s := rust_trim input
  match from_str_loop s (utf8_len s) 6 s with
  | .error e => .error e
  | .ok (bytes, rest) =>
    match rest with
    | [] => .ok ⟨bytes⟩
    | _ :: _ => .error (.InvalidLength (utf8_len s))

/-- Lowercase hexadecimal digit for a value below 16. -/
def to_hex_digit_lower (n : Nat) : Char :=
  if n < 10 then Char.ofNat ('0'.toNat + n) else Char.ofNat ('a'.toNat + (n - 10))

/-- Rust's `{:02x}` formatting of a `u8`: exactly two lowercase hex digits. -/
def byte_to_lower_hex (b : Nat) : List Char :=
  [to_hex_digit_lower (b / 16), to_hex_digit_lower (b % 16)]

/-- `fmt::LowerHex for Mac` (`wakeonlan/src/types.rs`, lines 167-175), which
is also `Display`: the six bytes in `{:02x}` form joined by `:`. -/
def Mac.to_lower_hex (m : Mac) : List Char :=
  byte_to_lower_hex (m.bytes.getD 0 0) ++ [':'] ++
  byte_to_lower_hex (m.bytes.getD 1 0) ++ [':'] ++
  byte_to_lower_hex (m.bytes.getD 2 0) ++ [':'] ++
  byte_to_lower_hex (m.bytes.getD 3 0) ++ [':'] ++
  byte_to_lower_hex (m.bytes.getD 4 0) ++ [':'] ++
  byte_to_lower_hex (m.bytes.getD 5 0)

/-- ASCII lowercasing, the effect of Rust's `str::to_lowercase` on the
characters a valid MAC string may contain. -/
def ascii_to_lower (c : Char) : Char :=
  if 'A' ≤ c ∧ c ≤ 'Z' then Char.ofNat (c.toNat + 32) else c

/-- `create_magic_packet_impl` (`waker/src/lib.rs` lines 203-212, identical in
`wakeonlan/src/lib.rs` lines 131-140): six `0xFF` bytes, then the 6-byte
address appended 16 times. -/
def create_magic_packet_impl (addr : List Nat) : MagicPacket :=
  ⟨List.replicate 6 0xFF ++ (List.replicate 16 addr).flatten⟩

/-- `AsMacBytes for Mac` (`wakeonlan/src/types.rs`, lines 21-27): always
succeeds, returning the wrapped bytes; the error type is Rust's uninhabited
`Infallible`, modelled by `Empty`. -/
def Mac.as_mac_bytes (m : Mac) : Except Empty (List Nat) :=
  .ok m.bytes

/-- `AsMacBytes for &[u8]` (`wakeonlan/src/types.rs`, lines 29-42): reject
slices whose length is not 6 with `InvalidLength(len)`, else copy the first
six bytes. -/
def slice_as_mac_bytes (s : List Nat) : Except MacAddressError (List Nat) :=
  if s.length ≠ 6 then .error (.InvalidLength s.length)
  else .ok (s.take 6)

/-- `TryFrom<&[u8]> for Mac` (`wakeonlan/src/types.rs`, lines 102-115). -/
def Mac.try_from_slice (value : List Nat) : Except MacAddressError Mac :=
  if value.length ≠ 6 then .error (.InvalidLength value.length)
  else .ok ⟨value⟩

/-- `create_magic_packet` (`waker/src/lib.rs` lines 193-200) instantiated at
`T = Mac`: convert with `as_mac_bytes`, then build the packet. -/
def create_magic_packet_from_mac (m : Mac) : Except Empty MagicPacket :=
  match m.as_mac_bytes with
  | .ok b => .ok (create_magic_packet_impl b)
  | .error e => .error e

/-- `create_magic_packet` instantiated at `T = [u8; 6]` (the `AsMacBytes`
instance for arrays returns `Ok(*self)` with error type `Infallible`). -/
def create_magic_packet_from_array (a : List Nat) : Except Empty MagicPacket :=
  .ok (create_magic_packet_impl a)

/-- `create_magic_packet` instantiated at `T = &[u8]`. -/
def create_magic_packet_from_slice (s : List Nat) :
    Except MacAddressError MagicPacket :=
  match slice_as_mac_bytes s with
  | .ok b => .ok (create_magic_packet_impl b)
  | .error e => .error e

/-- The `Machine` record of `waker-cli/src/types.rs`: a display name and a
MAC address. -/
structure Machine where
  name : String
  mac : Mac
deriving DecidableEq

/-- Modelled from the spec: `is_close_to_upper_bound` comes from the external
`handy` crate (not part of this repository); the spec describes it as testing
whether a score exceeds a "close to upper bound" threshold, a constant near
1.0.  The threshold is kept as an explicit parameter `c`. -/
def is_close_to_upper_bound (c : ℚ) (score : ℚ) : Bool :=
  decide (c < score)

/-- The loop of `Data::find_best_machine` (`waker-cli/src/main.rs`, lines
358-376): track the best strictly-greater score, and break as soon as the
current score is close to the upper bound.  `simq` is
`string_similarity(&machine.name, name)` with the query already applied
(`string_similarity` itself is an external `handy` function, kept abstract),
`close` the early-exit test. -/
def find_best_machine_go (simq : String → ℚ) (close : ℚ → Bool) :
    List Machine → ℚ → Option Machine → Option Machine
  | [], _, best_match => best_match
  | machine :: rest, best_score, best_match =>
    let score := simq machine.name
    let upd : ℚ × Option Machine :=
      if best_score < score then (score, some machine) else (best_score, best_match)
    if close score then upd.2
    else find_best_machine_go simq close rest upd.1 upd.2

/-- `Data::find_best_machine`: scan `machines` with `best_score = 0.0` and
`best_match = None`. -/
def find_best_machine (sim : String → String → ℚ) (c : ℚ)
    (machines : List Machine) (name : String) : Option Machine :=
  find_best_machine_go (fun n => sim n name) (is_close_to_upper_bound c) machines 0 none

/-- The loop of `Data::find_best_machine_index` (`waker-cli/src/main.rs`,
lines 338-356): same scan, tracking the `enumerate` index of the best match. -/
def find_best_machine_index_go (simq : String → ℚ) (close : ℚ → Bool) :
    Nat → List Machine → ℚ → Option Nat → Option Nat
  | _, [], _, best_match => best_match
  | index, machine :: rest, best_score, best_match =>
    let score := simq machine.name
    let upd : ℚ × Option Nat :=
      if best_score < score then (score, some index) else (best_score, best_match)
    if close score then upd.2
    else find_best_machine_index_go simq close (index + 1) rest upd.1 upd.2

/-- `Data::find_best_machine_index`. -/
def find_best_machine_index (sim : String → String → ℚ) (c : ℚ)
    (machines : List Machine) (name : String) : Option Nat :=
  find_best_machine_index_go (fun n => sim n name) (is_close_to_upper_bound c) 0 machines 0 none

/-- The resolver as the spec words it for the refinement comparison of the
early-exit short-circuit: scan the whole list to completion, keeping the
highest strictly-greater score (first-seen wins), no break. -/
def find_best_machine_full_scan_go (simq : String → ℚ) :
    List Machine → ℚ → Option Machine → Option Machine
  | [], _, best_match => best_match
  | machine :: rest, best_score, best_match =>
    let score := simq machine.name
    if best_score < score then find_best_machine_full_scan_go simq rest score (some machine)
    else find_best_machine_full_scan_go simq rest best_score best_match

/-- Full scan of the whole machine list (spec-side reference semantics). -/
def find_best_machine_full_scan (sim : String → String → ℚ)
    (machines : List Machine) (name : String) : Option Machine :=
  find_best_machine_full_scan_go (fun n => sim n name) machines 0 none

/-- The duplicate check of `Data::prompt_machine` (`waker-cli/src/main.rs`,
lines 410-418): a freshly entered name is rejected when some stored machine's
name scores strictly above `0.9` against it and no machine is being edited
(`existing.is_none()`). -/
def prompt_machine_duplicate_check (sim : String → String → ℚ)
    (machines : List Machine) (name : String) (existing : Option Machine) : Bool :=
  (machines.any fun m => decide ((9 : ℚ) / 10 < sim m.name name)) && existing.isNone

/-- One observable interaction with the operating system's UDP layer. -/
inductive NetEvent where
  | bind (addr : String)
  | set_broadcast (enabled : Bool)
  | send_to (bytes : List Nat) (addr : String)
deriving DecidableEq

/-- Abstract network stack: for each syscall, `none` means success and
`some msg` an OS-level failure with message `msg`. -/
structure NetStack where
  bind_result : String → Option String
  set_broadcast_result : Bool → Option String
  send_to_result : List Nat → String → Option String

/-- `send_magic_packet_impl` (`wakeonlan/src/lib.rs`, lines 211-222) over the
abstract network stack: bind a UDP socket to `0.0.0.0:0`, enable broadcast,
send the packet bytes to `addr` as one datagram; stop at the first failing
syscall with the corresponding `context` message.  Returns the syscall trace
together with the result. -/
def send_magic_packet_impl (net : NetStack) (packet : MagicPacket)
    (addr : String) : List NetEvent × Except String Unit :=
  match net.bind_result "0.0.0.0:0" with
  | some _ => ([.bind "0.0.0.0:0"], .error "Failed to bind UDP socket")
  | none =>
    match net.set_broadcast_result true with
    | some _ => ([.bind "0.0.0.0:0", .set_broadcast true],
                 .error "Failed to set socket to broadcast")
    | none =>
      match net.send_to_result packet.bytes addr with
      | some _ => ([.bind "0.0.0.0:0", .set_broadcast true, .send_to packet.bytes addr],
                   .error "Failed to send magic packet")
      | none => ([.bind "0.0.0.0:0", .set_broadcast true, .send_to packet.bytes addr],
                 .ok ())

/-- `send_magic_packet` (`wakeonlan/src/lib.rs`, lines 167-169): send to the
default broadcast address `255.255.255.255:9`. -/
def send_magic_packet (net : NetStack) (packet : MagicPacket) :
    List NetEvent × Except String Unit :=
  send_magic_packet_impl net packet "255.255.255.255:9"

/-- `wake_device_impl` (`waker/src/lib.rs`, lines 291-304) over the abstract
network stack: identical to `send_magic_packet_impl` except that the socket is
bound to the configurable `bind_address` of the `WakeOptions`. -/
def wake_device_impl (net : NetStack) (packet : MagicPacket)
    (broadcast_address bind_address : String) : List NetEvent × Except String Unit :=
  match net.bind_result bind_address with
  | some _ => ([.bind bind_address], .error "Failed to bind UDP socket")
  | none =>
    match net.set_broadcast_result true with
    | some _ => ([.bind bind_address, .set_broadcast true],
                 .error "Failed to set socket to broadcast")
    | none =>
      match net.send_to_result packet.bytes broadcast_address with
      | some _ => ([.bind bind_address, .set_broadcast true,
                    .send_to packet.bytes broadcast_address],
                   .error "Failed to send magic packet")
      | none => ([.bind bind_address, .set_broadcast true,
                  .send_to packet.bytes broadcast_address],
                 .ok ())

/-- Modelled from the spec: the default addresses of `WakeOptions`
(`waker/src/types.rs` is not in the sources; the crate documentation and the
spec give the defaults `255.255.255.255:9` for the broadcast address and
`0.0.0.0:0` for the bind address). -/
def wake_device_default (net : NetStack) (packet : MagicPacket) :
    List NetEvent × Except String Unit :=
  wake_device_impl net packet "255.255.255.255:9" "0.0.0.0:0"

/-- Does a network event transmit a datagram?  Used to state that the send
path emits a single datagram. -/
def is_send_event : NetEvent → Bool
  | .send_to _ _ => true
  | _ => false

/-- A MAC string of two-hex-digit groups joined by the uniform separator
`sep` (no trailing separator). -/
def groups_join (sep : Char) : List (Char × Char) → List Char
  | [] => []
  | [p] => [p.1, p.2]
  | p :: q :: gs => p.1 :: p.2 :: sep :: groups_join sep (q :: gs)

/-! ### Helper lemmas about the parser -/

/-- The 22 characters `hex_val` accepts. -/
def hex_chars : List Char :=
  ['A','B','C','D','E','F','a','b','c','d','e','f','0','1','2','3','4','5','6','7','8','9']

/-- `c` is a hexadecimal digit (`0-9a-fA-F`). -/
def is_hex_digit (c : Char) : Bool := hex_chars.contains c

/-- The byte produced from a two-hex-digit group, as computed by the parser:
`(hex_val(c1)? << 4) | hex_val(c2)?`. -/
def pair_byte (c1 c2 : Char) : Nat := (hex_val_digit c1 <<< 4) ||| hex_val_digit c2

lemma mem_of_is_hex_digit (c : Char) (h : is_hex_digit c = true) : c ∈ hex_chars := by
  simpa [is_hex_digit, List.contains, List.elem_eq_mem] using h

lemma hex_ok (c : Char) (h : is_hex_digit c = true) : hex_val c = .ok (hex_val_digit c) := by
  have hc := mem_of_is_hex_digit c h
  fin_cases hc <;> rfl

lemma hex_val_digit_lt (c : Char) (h : is_hex_digit c = true) : hex_val_digit c < 16 := by
  have hc := mem_of_is_hex_digit c h
  fin_cases hc <;> decide

lemma hex_digit_lower (c : Char) (h : is_hex_digit c = true) :
    to_hex_digit_lower (hex_val_digit c) = ascii_to_lower c := by
  have hc := mem_of_is_hex_digit c h
  fin_cases hc <;> decide

lemma hex_not_whitespace (c : Char) (h : is_hex_digit c = true) :
    rust_is_whitespace c = false := by
  have hc := mem_of_is_hex_digit c h
  fin_cases hc <;> decide

lemma sep_cases (c : Char) (h : is_supported_separator c = true) :
    c = ':' ∨ c = '-' ∨ c = '_' ∨ c = '.' := by
  have h' : ((c = ':' ∨ c = '-') ∨ c = '_') ∨ c = '.' := by
    simpa [is_supported_separator] using h
  tauto

lemma sep_not_whitespace (c : Char) (h : is_supported_separator c = true) :
    rust_is_whitespace c = false := by
  rcases sep_cases c h with rfl | rfl | rfl | rfl <;> decide

lemma sep_to_lower (c : Char) (h : is_supported_separator c = true) :
    ascii_to_lower c = c := by
  rcases sep_cases c h with rfl | rfl | rfl | rfl <;> decide

lemma dropWhile_of_all_false {p : Char → Bool} :
    ∀ l : List Char, (∀ c ∈ l, p c = false) → l.dropWhile p = l := by
  intro l h
  cases l with
  | nil => rfl
  | cons a t => simp [List.dropWhile, h a (List.mem_cons_self _ _)]

lemma rust_trim_of_no_ws (l : List Char) (h : ∀ c ∈ l, rust_is_whitespace c = false) :
    rust_trim l = l := by
  rw [rust_trim, dropWhile_of_all_false l h,
    dropWhile_of_all_false l.reverse (fun c hc => h c (List.mem_reverse.mp hc)),
    List.reverse_reverse]

lemma from_str_loop_two (orig : List Char) (len : Nat) (c1 c2 : Char) (cs : List Char)
    (h1 : is_hex_digit c1 = true) (h2 : is_hex_digit c2 = true) :
    from_str_loop orig len 1 (c1 :: c2 :: cs) = .ok ([pair_byte c1 c2], cs) := by
  simp [from_str_loop, hex_ok c1 h1, hex_ok c2 h2, pair_byte]

lemma from_str_loop_step (orig : List Char) (len : Nat) (i : Nat) (c1 c2 c : Char)
    (cs : List Char) (h1 : is_hex_digit c1 = true) (h2 : is_hex_digit c2 = true)
    (hc : is_supported_separator c = true) :
    from_str_loop orig len (i + 2) (c1 :: c2 :: c :: cs) =
      match from_str_loop orig len (i + 1) cs with
      | .error e => .error e
      | .ok (rest, cs') => .ok (pair_byte c1 c2 :: rest, cs') := by
  simp [from_str_loop, hex_ok c1 h1, hex_ok c2 h2, hc, pair_byte]
lemma from_str_loop_pattern (orig : List Char) (len : Nat)
    (d0 d1 d2 d3 d4 d5 d6 d7 d8 d9 d10 d11 s0 s1 s2 s3 s4 : Char) (rest : List Char)
    (hd0 : is_hex_digit d0 = true) (hd1 : is_hex_digit d1 = true)
    (hd2 : is_hex_digit d2 = true) (hd3 : is_hex_digit d3 = true)
    (hd4 : is_hex_digit d4 = true) (hd5 : is_hex_digit d5 = true)
    (hd6 : is_hex_digit d6 = true) (hd7 : is_hex_digit d7 = true)
    (hd8 : is_hex_digit d8 = true) (hd9 : is_hex_digit d9 = true)
    (hd10 : is_hex_digit d10 = true) (hd11 : is_hex_digit d11 = true)
    (hs0 : is_supported_separator s0 = true) (hs1 : is_supported_separator s1 = true)
    (hs2 : is_supported_separator s2 = true) (hs3 : is_supported_separator s3 = true)
    (hs4 : is_supported_separator s4 = true) :
    from_str_loop orig len 6
      (d0 :: d1 :: s0 :: d2 :: d3 :: s1 :: d4 :: d5 :: s2 :: d6 :: d7 :: s3 ::
       d8 :: d9 :: s4 :: d10 :: d11 :: rest) =
      .ok ([pair_byte d0 d1, pair_byte d2 d3, pair_byte d4 d5, pair_byte d6 d7,
            pair_byte d8 d9, pair_byte d10 d11], rest) := by
  have e1 : from_str_loop orig len 1 (d10 :: d11 :: rest) = .ok ([pair_byte d10 d11], rest) :=
    from_str_loop_two orig len d10 d11 rest hd10 hd11
  have e2 : from_str_loop orig len 2 (d8 :: d9 :: s4 :: d10 :: d11 :: rest) =
      .ok ([pair_byte d8 d9, pair_byte d10 d11], rest) := by
    have h := from_str_loop_step orig len 0 d8 d9 s4 (d10 :: d11 :: rest) hd8 hd9 hs4
    norm_num [e1] at h
    exact h
  have e3 : from_str_loop orig len 3 (d6 :: d7 :: s3 :: d8 :: d9 :: s4 :: d10 :: d11 :: rest) =
      .ok ([pair_byte d6 d7, pair_byte d8 d9, pair_byte d10 d11], rest) := by
    have h := from_str_loop_step orig len 1 d6 d7 s3 (d8 :: d9 :: s4 :: d10 :: d11 :: rest) hd6 hd7 hs3
    norm_num [e2] at h
    exact h
  have e4 : from_str_loop orig len 4
      (d4 :: d5 :: s2 :: d6 :: d7 :: s3 :: d8 :: d9 :: s4 :: d10 :: d11 :: rest) =
      .ok ([pair_byte d4 d5, pair_byte d6 d7, pair_byte d8 d9, pair_byte d10 d11], rest) := by
    have h := from_str_loop_step orig len 2 d4 d5 s2 (d6 :: d7 :: s3 :: d8 :: d9 :: s4 :: d10 :: d11 :: rest) hd4 hd5 hs2
    norm_num [e3] at h
    exact h
  have e5 : from_str_loop orig len 5
      (d2 :: d3 :: s1 :: d4 :: d5 :: s2 :: d6 :: d7 :: s3 :: d8 :: d9 :: s4 :: d10 :: d11 :: rest) =
      .ok ([pair_byte d2 d3, pair_byte d4 d5, pair_byte d6 d7, pair_byte d8 d9,
            pair_byte d10 d11], rest) := by
    have h := from_str_loop_step orig len 3 d2 d3 s1 (d4 :: d5 :: s2 :: d6 :: d7 :: s3 :: d8 :: d9 :: s4 :: d10 :: d11 :: rest) hd2 hd3 hs1
    norm_num [e4] at h
    exact h
  have h := from_str_loop_step orig len 4 d0 d1 s0 (d2 :: d3 :: s1 :: d4 :: d5 :: s2 :: d6 :: d7 :: s3 :: d8 :: d9 :: s4 :: d10 :: d11 :: rest) hd0 hd1 hs0
  norm_num [e5] at h
  exact h

set_option maxRecDepth 4000 in
lemma pair_byte_div_mod (c1 c2 : Char) (h1 : is_hex_digit c1 = true)
    (h2 : is_hex_digit c2 = true) :
    pair_byte c1 c2 / 16 = hex_val_digit c1 ∧ pair_byte c1 c2 % 16 = hex_val_digit c2 := by
  have key : ∀ p : Fin 16 × Fin 16,
      ((p.1.val <<< 4) ||| p.2.val) / 16 = p.1.val ∧
        ((p.1.val <<< 4) ||| p.2.val) % 16 = p.2.val := by decide
  exact key (⟨_, hex_val_digit_lt c1 h1⟩, ⟨_, hex_val_digit_lt c2 h2⟩)

lemma mac_from_str_pattern
    (d0 d1 d2 d3 d4 d5 d6 d7 d8 d9 d10 d11 s0 s1 s2 s3 s4 : Char)
    (hd0 : is_hex_digit d0 = true) (hd1 : is_hex_digit d1 = true)
    (hd2 : is_hex_digit d2 = true) (hd3 : is_hex_digit d3 = true)
    (hd4 : is_hex_digit d4 = true) (hd5 : is_hex_digit d5 = true)
    (hd6 : is_hex_digit d6 = true) (hd7 : is_hex_digit d7 = true)
    (hd8 : is_hex_digit d8 = true) (hd9 : is_hex_digit d9 = true)
    (hd10 : is_hex_digit d10 = true) (hd11 : is_hex_digit d11 = true)
    (hs0 : is_supported_separator s0 = true) (hs1 : is_supported_separator s1 = true)
    (hs2 : is_supported_separator s2 = true) (hs3 : is_supported_separator s3 = true)
    (hs4 : is_supported_separator s4 = true) :
    Mac.from_str
      (d0 :: d1 :: s0 :: d2 :: d3 :: s1 :: d4 :: d5 :: s2 :: d6 :: d7 :: s3 ::
       d8 :: d9 :: s4 :: d10 :: d11 :: []) =
      .ok ⟨[pair_byte d0 d1, pair_byte d2 d3, pair_byte d4 d5, pair_byte d6 d7,
            pair_byte d8 d9, pair_byte d10 d11]⟩ := by
  have hnows : ∀ c ∈ (d0 :: d1 :: s0 :: d2 :: d3 :: s1 :: d4 :: d5 :: s2 :: d6 :: d7 :: s3 ::
      d8 :: d9 :: s4 :: d10 :: d11 :: []), rust_is_whitespace c = false := by
    intro c hc
    simp only [List.mem_cons, List.not_mem_nil, or_false] at hc
    rcases hc with rfl|rfl|rfl|rfl|rfl|rfl|rfl|rfl|rfl|rfl|rfl|rfl|rfl|rfl|rfl|rfl|rfl <;>
      first
        | exact hex_not_whitespace _ (by assumption)
        | exact sep_not_whitespace _ (by assumption)
  rw [Mac.from_str, rust_trim_of_no_ws _ hnows,
    from_str_loop_pattern _ _ d0 d1 d2 d3 d4 d5 d6 d7 d8 d9 d10 d11 s0 s1 s2 s3 s4 []
      hd0 hd1 hd2 hd3 hd4 hd5 hd6 hd7 hd8 hd9 hd10 hd11 hs0 hs1 hs2 hs3 hs4]

/-- C2: for every string of six two-hex-digit groups joined by supported
separators, in any letter case, parsing succeeds; the colon-separated string
of the same digits parses to the same `Mac`; and formatting that `Mac` with
`LowerHex`/`Display` yields the canonical lowercase colon-separated form,
i.e. the character-wise lowercasing of the colon-separated input. -/
theorem c2_parse_format_roundtrip
    (d0 d1 d2 d3 d4 d5 d6 d7 d8 d9 d10 d11 s0 s1 s2 s3 s4 : Char)
    (hd0 : is_hex_digit d0 = true) (hd1 : is_hex_digit d1 = true)
    (hd2 : is_hex_digit d2 = true) (hd3 : is_hex_digit d3 = true)
    (hd4 : is_hex_digit d4 = true) (hd5 : is_hex_digit d5 = true)
    (hd6 : is_hex_digit d6 = true) (hd7 : is_hex_digit d7 = true)
    (hd8 : is_hex_digit d8 = true) (hd9 : is_hex_digit d9 = true)
    (hd10 : is_hex_digit d10 = true) (hd11 : is_hex_digit d11 = true)
    (hs0 : is_supported_separator s0 = true) (hs1 : is_supported_separator s1 = true)
    (hs2 : is_supported_separator s2 = true) (hs3 : is_supported_separator s3 = true)
    (hs4 : is_supported_separator s4 = true) :
    ∃ m : Mac,
      Mac.from_str (d0 :: d1 :: s0 :: d2 :: d3 :: s1 :: d4 :: d5 :: s2 :: d6 :: d7 :: s3 ::
        d8 :: d9 :: s4 :: d10 :: d11 :: []) = .ok m ∧
      Mac.from_str (d0 :: d1 :: ':' :: d2 :: d3 :: ':' :: d4 :: d5 :: ':' :: d6 :: d7 :: ':' ::
        d8 :: d9 :: ':' :: d10 :: d11 :: []) = .ok m ∧
      Mac.to_lower_hex m = List.map ascii_to_lower
        (d0 :: d1 :: ':' :: d2 :: d3 :: ':' :: d4 :: d5 :: ':' :: d6 :: d7 :: ':' ::
         d8 :: d9 :: ':' :: d10 :: d11 :: []) := by
  refine ⟨⟨[pair_byte d0 d1, pair_byte d2 d3, pair_byte d4 d5, pair_byte d6 d7,
            pair_byte d8 d9, pair_byte d10 d11]⟩, ?_, ?_, ?_⟩
  · exact mac_from_str_pattern d0 d1 d2 d3 d4 d5 d6 d7 d8 d9 d10 d11 s0 s1 s2 s3 s4
      hd0 hd1 hd2 hd3 hd4 hd5 hd6 hd7 hd8 hd9 hd10 hd11 hs0 hs1 hs2 hs3 hs4
  · exact mac_from_str_pattern d0 d1 d2 d3 d4 d5 d6 d7 d8 d9 d10 d11 ':' ':' ':' ':' ':'
      hd0 hd1 hd2 hd3 hd4 hd5 hd6 hd7 hd8 hd9 hd10 hd11 (by decide) (by decide)
      (by decide) (by decide) (by decide)
  · obtain ⟨q0, r0⟩ := pair_byte_div_mod d0 d1 hd0 hd1
    obtain ⟨q1, r1⟩ := pair_byte_div_mod d2 d3 hd2 hd3
    obtain ⟨q2, r2⟩ := pair_byte_div_mod d4 d5 hd4 hd5
    obtain ⟨q3, r3⟩ := pair_byte_div_mod d6 d7 hd6 hd7
    obtain ⟨q4, r4⟩ := pair_byte_div_mod d8 d9 hd8 hd9
    obtain ⟨q5, r5⟩ := pair_byte_div_mod d10 d11 hd10 hd11
    simp [Mac.to_lower_hex, byte_to_lower_hex, q0, r0, q1, r1, q2, r2, q3, r3, q4, r4, q5, r5,
      hex_digit_lower d0 hd0, hex_digit_lower d1 hd1, hex_digit_lower d2 hd2,
      hex_digit_lower d3 hd3, hex_digit_lower d4 hd4, hex_digit_lower d5 hd5,
      hex_digit_lower d6 hd6, hex_digit_lower d7 hd7, hex_digit_lower d8 hd8,
      hex_digit_lower d9 hd9, hex_digit_lower d10 hd10, hex_digit_lower d11 hd11,
      show ascii_to_lower ':' = ':' by decide]

/-- C2 witness: the mixed-case input `4E:5f:0A:1b:2C:3d` parses and formats
to its lowercasing. -/
theorem c2_parse_format_roundtrip_witness :
    ∃ m : Mac,
      Mac.from_str ('4' :: 'E' :: ':' :: '5' :: 'f' :: ':' :: '0' :: 'A' :: ':' :: '1' :: 'b' ::
        ':' :: '2' :: 'C' :: ':' :: '3' :: 'd' :: []) = .ok m ∧
      Mac.from_str ('4' :: 'E' :: ':' :: '5' :: 'f' :: ':' :: '0' :: 'A' :: ':' :: '1' :: 'b' ::
        ':' :: '2' :: 'C' :: ':' :: '3' :: 'd' :: []) = .ok m ∧
      Mac.to_lower_hex m = List.map ascii_to_lower
        ('4' :: 'E' :: ':' :: '5' :: 'f' :: ':' :: '0' :: 'A' :: ':' :: '1' :: 'b' ::
         ':' :: '2' :: 'C' :: ':' :: '3' :: 'd' :: []) :=
  c2_parse_format_roundtrip '4' 'E' '5' 'f' '0' 'A' '1' 'b' '2' 'C' '3' 'd' ':' ':' ':' ':' ':'
    (by decide) (by decide) (by decide) (by decide) (by decide) (by decide) (by decide)
    (by decide) (by decide) (by decide) (by decide) (by decide) (by decide) (by decide)
    (by decide) (by decide) (by decide)

/-- C10: the parser checks the separator independently at each of the five
positions, so an input mixing supported separators parses successfully, to
the same `Mac` as the uniform-separator form of the same hex digits. -/
theorem c10_mixed_separators
    (d0 d1 d2 d3 d4 d5 d6 d7 d8 d9 d10 d11 s0 s1 s2 s3 s4 u : Char)
    (hd0 : is_hex_digit d0 = true) (hd1 : is_hex_digit d1 = true)
    (hd2 : is_hex_digit d2 = true) (hd3 : is_hex_digit d3 = true)
    (hd4 : is_hex_digit d4 = true) (hd5 : is_hex_digit d5 = true)
    (hd6 : is_hex_digit d6 = true) (hd7 : is_hex_digit d7 = true)
    (hd8 : is_hex_digit d8 = true) (hd9 : is_hex_digit d9 = true)
    (hd10 : is_hex_digit d10 = true) (hd11 : is_hex_digit d11 = true)
    (hs0 : is_supported_separator s0 = true) (hs1 : is_supported_separator s1 = true)
    (hs2 : is_supported_separator s2 = true) (hs3 : is_supported_separator s3 = true)
    (hs4 : is_supported_separator s4 = true) (hu : is_supported_separator u = true) :
    ∃ m : Mac,
      Mac.from_str (d0 :: d1 :: s0 :: d2 :: d3 :: s1 :: d4 :: d5 :: s2 :: d6 :: d7 :: s3 ::
        d8 :: d9 :: s4 :: d10 :: d11 :: []) = .ok m ∧
      Mac.from_str (d0 :: d1 :: u :: d2 :: d3 :: u :: d4 :: d5 :: u :: d6 :: d7 :: u ::
        d8 :: d9 :: u :: d10 :: d11 :: []) = .ok m := by
  refine ⟨⟨[pair_byte d0 d1, pair_byte d2 d3, pair_byte d4 d5, pair_byte d6 d7,
            pair_byte d8 d9, pair_byte d10 d11]⟩, ?_, ?_⟩
  · exact mac_from_str_pattern d0 d1 d2 d3 d4 d5 d6 d7 d8 d9 d10 d11 s0 s1 s2 s3 s4
      hd0 hd1 hd2 hd3 hd4 hd5 hd6 hd7 hd8 hd9 hd10 hd11 hs0 hs1 hs2 hs3 hs4
  · exact mac_from_str_pattern d0 d1 d2 d3 d4 d5 d6 d7 d8 d9 d10 d11 u u u u u
      hd0 hd1 hd2 hd3 hd4 hd5 hd6 hd7 hd8 hd9 hd10 hd11 hu hu hu hu hu

/-- C10 witness: `01:23-45.67_89:ab` parses to the same address as
`01:23:45:67:89:ab`. -/
theorem c10_mixed_separators_witness :
    ∃ m : Mac,
      Mac.from_str ('0' :: '1' :: ':' :: '2' :: '3' :: '-' :: '4' :: '5' :: '.' :: '6' :: '7' ::
        '_' :: '8' :: '9' :: ':' :: 'a' :: 'b' :: []) = .ok m ∧
      Mac.from_str ('0' :: '1' :: ':' :: '2' :: '3' :: ':' :: '4' :: '5' :: ':' :: '6' :: '7' ::
        ':' :: '8' :: '9' :: ':' :: 'a' :: 'b' :: []) = .ok m :=
  c10_mixed_separators '0' '1' '2' '3' '4' '5' '6' '7' '8' '9' 'a' 'b' ':' '-' '.' '_' ':' ':'
    (by decide) (by decide) (by decide) (by decide) (by decide) (by decide) (by decide)
    (by decide) (by decide) (by decide) (by decide) (by decide) (by decide) (by decide)
    (by decide) (by decide) (by decide) (by decide)

/-! ### Magic-packet layout -/

lemma take_append_len {α : Type} (l1 l2 : List α) (n : Nat) (h : l1.length = n) :
    (l1 ++ l2).take n = l1 := by
  subst h
  exact List.take_left l1 l2

lemma drop_append_len {α : Type} (l1 l2 : List α) (n m : Nat) (h : l1.length = n) :
    (l1 ++ l2).drop (n + m) = l2.drop m := by
  subst h
  exact List.drop_append m

lemma flatten_replicate_length (n : Nat) (l : List Nat) :
    ((List.replicate n l).flatten).length = n * l.length := by
  induction n with
  | zero => simp
  | succ n ih => simp [List.replicate_succ, ih]; ring

lemma flatten_replicate_block (b : List Nat) (h6 : b.length = 6) :
    ∀ n k, k < n → (((List.replicate n b).flatten).drop (6 * k)).take 6 = b := by
  intro n
  induction n with
  | zero => omega
  | succ n ih =>
    intro k hk
    rw [List.replicate_succ, List.flatten_cons]
    cases k with
    | zero =>
      rw [Nat.mul_zero, List.drop_zero, ← h6, List.take_left]
    | succ k =>
      have harith : 6 * (k + 1) = b.length + 6 * k := by omega
      rw [harith, List.drop_append, ih k (by omega)]

/-- C1: for every 6-byte MAC address `b`, the magic packet built from it is
102 bytes long, its first 6 bytes are all `0xFF`, and for every `k < 16` the
six bytes starting at position `6 + 6k` equal `b`. -/
theorem c1_magic_packet_layout (b : List Nat) (h6 : b.length = 6) :
    (create_magic_packet_impl b).bytes.length = 102 ∧
    (create_magic_packet_impl b).bytes.take 6 = List.replicate 6 0xFF ∧
    ∀ k, k < 16 → (((create_magic_packet_impl b).bytes.drop (6 + 6 * k)).take 6) = b := by
  refine ⟨?_, ?_, ?_⟩
  · simp [create_magic_packet_impl, flatten_replicate_length, h6]
  · rw [create_magic_packet_impl]
    exact take_append_len _ _ 6 (by simp)
  · intro k hk
    rw [create_magic_packet_impl]
    show ((List.replicate 6 0xFF ++ (List.replicate 16 b).flatten).drop (6 + 6 * k)).take 6 = b
    rw [drop_append_len _ _ 6 (6 * k) (by simp), flatten_replicate_block b h6 16 k hk]

/-- C1 witness: the layout facts at the repository's test MAC
`01:23:45:67:89:AB`. -/
theorem c1_magic_packet_layout_witness :
    (create_magic_packet_impl [0x01, 0x23, 0x45, 0x67, 0x89, 0xAB]).bytes.length = 102 ∧
    (create_magic_packet_impl [0x01, 0x23, 0x45, 0x67, 0x89, 0xAB]).bytes.take 6 =
      List.replicate 6 0xFF ∧
    ∀ k, k < 16 →
      (((create_magic_packet_impl [0x01, 0x23, 0x45, 0x67, 0x89, 0xAB]).bytes.drop
        (6 + 6 * k)).take 6) = [0x01, 0x23, 0x45, 0x67, 0x89, 0xAB] :=
  c1_magic_packet_layout [0x01, 0x23, 0x45, 0x67, 0x89, 0xAB] (by decide)

/-- C6: building a packet from an already-validated MAC value cannot fail:
for a `Mac` the error type is uninhabited and the `Ok` branch is always
taken, for a `[u8; 6]` likewise, and the packet is a pure function of the six
bytes — equal byte arrays give byte-identical packets. -/
theorem c6_create_magic_packet_total (m : Mac) :
    create_magic_packet_from_mac m = .ok (create_magic_packet_impl m.bytes) ∧
    (∀ e : Empty, create_magic_packet_from_mac m ≠ .error e) ∧
    (∀ a : List Nat, create_magic_packet_from_array a = .ok (create_magic_packet_impl a)) ∧
    (∀ m' : Mac, m.bytes = m'.bytes →
      create_magic_packet_from_mac m = create_magic_packet_from_mac m') := by
  refine ⟨rfl, fun e => e.elim, fun a => rfl, ?_⟩
  intro m' h
  cases m
  cases m'
  simp only at h
  subst h
  rfl

/-- C6 witness: at the test MAC, the `Mac` and array paths both return `Ok`
of the same deterministic packet. -/
theorem c6_create_magic_packet_total_witness :
    create_magic_packet_from_mac ⟨[0x01, 0x23, 0x45, 0x67, 0x89, 0xAB]⟩ =
      .ok (create_magic_packet_impl [0x01, 0x23, 0x45, 0x67, 0x89, 0xAB]) ∧
    create_magic_packet_from_mac ⟨[0x01, 0x23, 0x45, 0x67, 0x89, 0xAB]⟩ =
      create_magic_packet_from_mac ⟨[0x01, 0x23, 0x45, 0x67, 0x89, 0xAB]⟩ :=
  ⟨(c6_create_magic_packet_total ⟨[0x01, 0x23, 0x45, 0x67, 0x89, 0xAB]⟩).1,
   (c6_create_magic_packet_total ⟨[0x01, 0x23, 0x45, 0x67, 0x89, 0xAB]⟩).2.2.2
     ⟨[0x01, 0x23, 0x45, 0x67, 0x89, 0xAB]⟩ rfl⟩

/-- C7: converting a byte slice of length `n ≠ 6` to a MAC fails with exactly
`InvalidLength(n)` (both in `AsMacBytes for &[u8]` and `TryFrom<&[u8]>`);
for `n = 6` the conversion succeeds and returns exactly the input bytes. -/
theorem c7_slice_conversion (s : List Nat) :
    (s.length ≠ 6 →
      slice_as_mac_bytes s = .error (.InvalidLength s.length) ∧
      Mac.try_from_slice s = .error (.InvalidLength s.length) ∧
      create_magic_packet_from_slice s = .error (.InvalidLength s.length)) ∧
    (s.length = 6 →
      slice_as_mac_bytes s = .ok s ∧
      Mac.try_from_slice s = .ok ⟨s⟩ ∧
      create_magic_packet_from_slice s = .ok (create_magic_packet_impl s)) := by
  constructor
  · intro h
    simp [slice_as_mac_bytes, Mac.try_from_slice, create_magic_packet_from_slice, h]
  · intro h
    have htake : s.take 6 = s := by
      rw [← h]
      exact List.take_length s
    simp [slice_as_mac_bytes, Mac.try_from_slice, create_magic_packet_from_slice, h, htake]

/-- C7 witness: a 5-byte slice fails with `InvalidLength 5`; a 6-byte slice
converts to exactly its bytes. -/
theorem c7_slice_conversion_witness :
    slice_as_mac_bytes [0x01, 0x23, 0x45, 0x67, 0x89] = .error (.InvalidLength 5) ∧
    Mac.try_from_slice [0x01, 0x23, 0x45, 0x67, 0x89, 0xAB] =
      .ok ⟨[0x01, 0x23, 0x45, 0x67, 0x89, 0xAB]⟩ :=
  ⟨((c7_slice_conversion [0x01, 0x23, 0x45, 0x67, 0x89]).1 (by decide)).1,
   ((c7_slice_conversion [0x01, 0x23, 0x45, 0x67, 0x89, 0xAB]).2 (by decide)).2.1⟩

/-- C8: during record creation (`existing = none`, i.e. add rather than
edit), a new name is rejected as a duplicate exactly when some stored
record's name scores strictly above `0.9` against it; scores of exactly
`0.9` never reject, and in edit mode the check never rejects. -/
theorem c8_duplicate_threshold (sim : String → String → ℚ)
    (machines : List Machine) (name : String) :
    (prompt_machine_duplicate_check sim machines name none = true ↔
      ∃ m ∈ machines, (9 : ℚ) / 10 < sim m.name name) ∧
    ((∀ m ∈ machines, sim m.name name ≤ (9 : ℚ) / 10) →
      prompt_machine_duplicate_check sim machines name none = false) ∧
    (∀ mex : Machine, prompt_machine_duplicate_check sim machines name (some mex) = false) := by
  refine ⟨?_, ?_, ?_⟩
  · simp [prompt_machine_duplicate_check, List.any_eq_true]
  · intro h
    simp only [prompt_machine_duplicate_check, Option.isNone_none, Bool.and_true,
      List.any_eq_false, decide_eq_true_eq]
    intro x hx
    exact not_lt.mpr (h x hx)
  · intro mex
    simp [prompt_machine_duplicate_check]

/-- C8 witness: with one stored machine scoring exactly `0.9` the name is
accepted, and the if-and-only-if holds at a concrete store. -/
theorem c8_duplicate_threshold_witness :
    prompt_machine_duplicate_check (fun _ _ => (9 : ℚ) / 10)
      [⟨"alpha", ⟨[0, 0, 0, 0, 0, 0]⟩⟩] "alpha" none = false :=
  (c8_duplicate_threshold (fun _ _ => (9 : ℚ) / 10)
    [⟨"alpha", ⟨[0, 0, 0, 0, 0, 0]⟩⟩] "alpha").2.1 (fun _ _ => le_refl _)

/-! ### Resolver lemmas -/

lemma full_scan_go_of_all_le (simq : String → ℚ) :
    ∀ (l : List Machine) (bs : ℚ) (best : Option Machine),
      (∀ m ∈ l, simq m.name ≤ bs) →
      find_best_machine_full_scan_go simq l bs best = best := by
  intro l
  induction l with
  | nil => intro bs best _; rfl
  | cons machine rest ih =>
    intro bs best h
    have hm : simq machine.name ≤ bs := h machine (List.mem_cons_self _ _)
    rw [find_best_machine_full_scan_go, if_neg (not_lt.mpr hm)]
    exact ih bs best (fun m hmem => h m (List.mem_cons_of_mem _ hmem))

lemma find_best_machine_go_eq_full_scan (simq : String → ℚ) (c : ℚ) :
    ∀ (l : List Machine) (bs : ℚ) (best : Option Machine),
      l.Pairwise (fun a b => ¬(c < simq a.name ∧ c < simq b.name)) →
      find_best_machine_go simq (is_close_to_upper_bound c) l bs best =
        find_best_machine_full_scan_go simq l bs best := by
  intro l
  induction l with
  | nil => intro bs best _; rfl
  | cons machine rest ih =>
    intro bs best hpw
    rw [List.pairwise_cons] at hpw
    obtain ⟨hhead, htail⟩ := hpw
    by_cases hclose : c < simq machine.name
    · have hce : is_close_to_upper_bound c (simq machine.name) = true :=
        decide_eq_true hclose
      have hrest : ∀ m ∈ rest, simq m.name ≤ c := by
        intro m hm
        by_contra hgt
        exact hhead m hm ⟨hclose, lt_of_not_le hgt⟩
      by_cases hup : bs < simq machine.name
      · simp only [find_best_machine_go, find_best_machine_full_scan_go, hce, if_pos hup,
          if_true]
        exact (full_scan_go_of_all_le simq rest _ _
          (fun m hm => le_of_lt (lt_of_le_of_lt (hrest m hm) hclose))).symm
      · simp only [find_best_machine_go, find_best_machine_full_scan_go, hce, if_neg hup,
          if_true]
        exact (full_scan_go_of_all_le simq rest _ _
          (fun m hm => le_trans (hrest m hm) (le_of_lt (lt_of_lt_of_le hclose
            (not_lt.mp hup))))).symm
    · have hce : is_close_to_upper_bound c (simq machine.name) = false :=
        decide_eq_false hclose
      by_cases hup : bs < simq machine.name
      · simp only [find_best_machine_go, find_best_machine_full_scan_go, hce, if_pos hup,
          Bool.false_eq_true, if_false]
        exact ih _ _ htail
      · simp only [find_best_machine_go, find_best_machine_full_scan_go, hce, if_neg hup,
          Bool.false_eq_true, if_false]
        exact ih _ _ htail

/-- C4: provided no two records score above the early-exit threshold against
the query, `find_best_machine` with the short-circuit returns exactly the
record found by a full scan of the whole list keeping the highest
strictly-greater score. -/
theorem c4_short_circuit_refinement (sim : String → String → ℚ) (c : ℚ)
    (machines : List Machine) (name : String)
    (h : machines.Pairwise (fun a b => ¬(c < sim a.name name ∧ c < sim b.name name))) :
    find_best_machine sim c machines name = find_best_machine_full_scan sim machines name :=
  find_best_machine_go_eq_full_scan (fun n => sim n name) c machines 0 none h

/-- C4 witness: a record scoring above the threshold triggers the early exit
and the result agrees with the full scan. -/
theorem c4_short_circuit_refinement_witness :
    find_best_machine (fun _ _ => 1) (99 / 100)
      [⟨"alpha", ⟨[0, 0, 0, 0, 0, 0]⟩⟩] "alpha" =
    find_best_machine_full_scan (fun _ _ => 1)
      [⟨"alpha", ⟨[0, 0, 0, 0, 0, 0]⟩⟩] "alpha" :=
  c4_short_circuit_refinement (fun _ _ => 1) (99 / 100)
    [⟨"alpha", ⟨[0, 0, 0, 0, 0, 0]⟩⟩] "alpha"
    (List.pairwise_singleton _ _)

lemma machine_go_of_all_le (simq : String → ℚ) (close : ℚ → Bool) :
    ∀ (l : List Machine) (bs : ℚ) (best : Option Machine),
      (∀ m ∈ l, simq m.name ≤ bs) →
      find_best_machine_go simq close l bs best = best := by
  intro l
  induction l with
  | nil => intro bs best _; rfl
  | cons machine rest ih =>
    intro bs best h
    have hm : ¬bs < simq machine.name := not_lt.mpr (h machine (List.mem_cons_self _ _))
    cases hclose : close (simq machine.name) with
    | true => simp only [find_best_machine_go, if_neg hm, hclose, if_true]
    | false =>
      simp only [find_best_machine_go, if_neg hm, hclose, Bool.false_eq_true, if_false]
      exact ih bs best (fun m hmem => h m (List.mem_cons_of_mem _ hmem))

lemma index_go_of_all_le (simq : String → ℚ) (close : ℚ → Bool) :
    ∀ (l : List Machine) (idx : Nat) (bs : ℚ) (best : Option Nat),
      (∀ m ∈ l, simq m.name ≤ bs) →
      find_best_machine_index_go simq close idx l bs best = best := by
  intro l
  induction l with
  | nil => intro idx bs best _; rfl
  | cons machine rest ih =>
    intro idx bs best h
    have hm : ¬bs < simq machine.name := not_lt.mpr (h machine (List.mem_cons_self _ _))
    cases hclose : close (simq machine.name) with
    | true => simp only [find_best_machine_index_go, if_neg hm, hclose, if_true]
    | false =>
      simp only [find_best_machine_index_go, if_neg hm, hclose, Bool.false_eq_true, if_false]
      exact ih (idx + 1) bs best (fun m hmem => h m (List.mem_cons_of_mem _ hmem))

lemma index_go_some (simq : String → ℚ) (close : ℚ → Bool) :
    ∀ (l : List Machine) (idx : Nat) (bs : ℚ) (best : Option Nat) (i : Nat),
      find_best_machine_index_go simq close idx l bs best = some i →
      best = some i ∨
        ∃ k, ∃ hk : k < l.length, i = idx + k ∧ bs < simq (l.get ⟨k, hk⟩).name ∧
          ∀ k', (hk' : k' < k) →
            simq (l.get ⟨k', hk'.trans hk⟩).name < simq (l.get ⟨k, hk⟩).name := by
  intro l
  induction l with
  | nil => intro idx bs best i h; exact Or.inl h
  | cons machine rest ih =>
    intro idx bs best i h
    by_cases hup : bs < simq machine.name
    · cases hclose : close (simq machine.name) with
      | true =>
        rw [find_best_machine_index_go] at h
        simp only [if_pos hup, hclose, if_true] at h
        have hii : idx = i := Option.some_injective _ h
        refine Or.inr ⟨0, Nat.succ_pos _, by omega, hup, ?_⟩
        intro k' hk'
        exact absurd hk' (Nat.not_lt_zero k')
      | false =>
        rw [find_best_machine_index_go] at h
        simp only [if_pos hup, hclose, Bool.false_eq_true, if_false] at h
        rcases ih (idx + 1) _ _ i h with hbest | ⟨k, hk, hik, hlt, hall⟩
        · have hii : idx = i := Option.some_injective _ hbest
          refine Or.inr ⟨0, Nat.succ_pos _, by omega, hup, ?_⟩
          intro k' hk'
          exact absurd hk' (Nat.not_lt_zero k')
        · refine Or.inr ⟨k + 1, Nat.succ_lt_succ hk, by omega, hup.trans hlt, ?_⟩
          intro k' hk'
          cases k' with
          | zero => exact hlt
          | succ j => exact hall j (by omega)
    · cases hclose : close (simq machine.name) with
      | true =>
        rw [find_best_machine_index_go] at h
        simp only [if_neg hup, hclose, if_true] at h
        exact Or.inl h
      | false =>
        rw [find_best_machine_index_go] at h
        simp only [if_neg hup, hclose, Bool.false_eq_true, if_false] at h
        rcases ih (idx + 1) _ _ i h with hbest | ⟨k, hk, hik, hlt, hall⟩
        · exact Or.inl hbest
        · refine Or.inr ⟨k + 1, Nat.succ_lt_succ hk, by omega, hlt, ?_⟩
          intro k' hk'
          cases k' with
          | zero => exact lt_of_le_of_lt (not_lt.mp hup) hlt
          | succ j => exact hall j (by omega)

/-- C5: the resolver returns `none` when no record scores strictly above 0
(in particular on the empty list); a returned index always has a strictly
positive score and a score strictly greater than every earlier record's, so
on ties the first-seen record wins and a later tying record is never
returned. -/
theorem c5_resolver_none_and_first_seen (sim : String → String → ℚ) (c : ℚ)
    (machines : List Machine) (name : String) :
    (machines = [] → find_best_machine sim c machines name = none ∧
      find_best_machine_index sim c machines name = none) ∧
    ((∀ m ∈ machines, sim m.name name ≤ 0) →
      find_best_machine sim c machines name = none ∧
      find_best_machine_index sim c machines name = none) ∧
    (∀ i, find_best_machine_index sim c machines name = some i →
      ∃ hi : i < machines.length, 0 < sim (machines.get ⟨i, hi⟩).name name ∧
        ∀ j, (hj : j < i) → sim (machines.get ⟨j, hj.trans hi⟩).name name <
          sim (machines.get ⟨i, hi⟩).name name) ∧
    (∀ i j, (hi : i < machines.length) → (hj : j < machines.length) → i < j →
      sim (machines.get ⟨i, hi⟩).name name = sim (machines.get ⟨j, hj⟩).name name →
      find_best_machine_index sim c machines name ≠ some j) := by
  have part3 : ∀ i, find_best_machine_index sim c machines name = some i →
      ∃ hi : i < machines.length, 0 < sim (machines.get ⟨i, hi⟩).name name ∧
        ∀ j, (hj : j < i) → sim (machines.get ⟨j, hj.trans hi⟩).name name <
          sim (machines.get ⟨i, hi⟩).name name := by
    intro i h
    rcases index_go_some (fun n => sim n name) (is_close_to_upper_bound c)
        machines 0 0 none i h with hbest | ⟨k, hk, hik, hlt, hall⟩
    · exact absurd hbest (by simp)
    · have hik' : i = k := by omega
      subst hik'
      exact ⟨hk, hlt, fun j hj => hall j hj⟩
  refine ⟨?_, ?_, part3, ?_⟩
  · rintro rfl
    exact ⟨rfl, rfl⟩
  · intro h
    exact ⟨machine_go_of_all_le _ _ machines 0 none h,
      index_go_of_all_le _ _ machines 0 0 none h⟩
  · intro i j hi hj hij heq hsome
    obtain ⟨hj', hpos, hall⟩ := part3 j hsome
    have := hall i hij
    rw [heq] at this
    exact lt_irrefl _ this

/-- C5 witness: on the empty list and on an all-zero-score list the resolver
returns `none`; with equal scores a later index is never returned. -/
theorem c5_resolver_none_and_first_seen_witness :
    (find_best_machine (fun _ _ => 0) 2 [] "query" = none ∧
      find_best_machine_index (fun _ _ => 0) 2 [] "query" = none) ∧
    (find_best_machine (fun _ _ => 0) 2 [⟨"alpha", ⟨[0, 0, 0, 0, 0, 0]⟩⟩] "query" = none ∧
      find_best_machine_index (fun _ _ => 0) 2 [⟨"alpha", ⟨[0, 0, 0, 0, 0, 0]⟩⟩] "query" = none) ∧
    find_best_machine_index (fun _ _ => 0) 2
      [⟨"alpha", ⟨[0, 0, 0, 0, 0, 0]⟩⟩, ⟨"beta", ⟨[1, 1, 1, 1, 1, 1]⟩⟩] "query" ≠ some 1 :=
  ⟨(c5_resolver_none_and_first_seen (fun _ _ => 0) 2 [] "query").1 rfl,
   (c5_resolver_none_and_first_seen (fun _ _ => 0) 2
      [⟨"alpha", ⟨[0, 0, 0, 0, 0, 0]⟩⟩] "query").2.1 (fun _ _ => le_refl 0),
   (c5_resolver_none_and_first_seen (fun _ _ => 0) 2
      [⟨"alpha", ⟨[0, 0, 0, 0, 0, 0]⟩⟩, ⟨"beta", ⟨[1, 1, 1, 1, 1, 1]⟩⟩] "query").2.2.2
     0 1 (by decide) (by decide) (by decide) rfl⟩

/-- C9: the send path binds a UDP socket to the bind address (`0.0.0.0:0`
in `send_magic_packet_impl`, the configurable one in `wake_device_impl`),
enables the broadcast option, and transmits the packet's bytes as a single
datagram to the broadcast address (default `255.255.255.255:9`); it succeeds
exactly when bind, broadcast-enable and the one send call all succeed, and
performs no network action other than these three. -/
theorem c9_send_path (net : NetStack) (packet : MagicPacket) (addr bindaddr : String) :
    ((send_magic_packet_impl net packet addr).2 = .ok () ↔
      net.bind_result "0.0.0.0:0" = none ∧ net.set_broadcast_result true = none ∧
        net.send_to_result packet.bytes addr = none) ∧
    (net.bind_result "0.0.0.0:0" = none → net.set_broadcast_result true = none →
      net.send_to_result packet.bytes addr = none →
      (send_magic_packet_impl net packet addr).1 =
        [.bind "0.0.0.0:0", .set_broadcast true, .send_to packet.bytes addr]) ∧
    (((send_magic_packet_impl net packet addr).1.filter is_send_event).length ≤ 1) ∧
    ((send_magic_packet_impl net packet addr).1.head? = some (.bind "0.0.0.0:0")) ∧
    (send_magic_packet net packet = send_magic_packet_impl net packet "255.255.255.255:9") ∧
    ((wake_device_impl net packet addr bindaddr).2 = .ok () ↔
      net.bind_result bindaddr = none ∧ net.set_broadcast_result true = none ∧
        net.send_to_result packet.bytes addr = none) ∧
    ((wake_device_impl net packet addr bindaddr).1.head? = some (.bind bindaddr)) ∧
    (wake_device_default net packet = wake_device_impl net packet "255.255.255.255:9" "0.0.0.0:0") := by
  refine ⟨?_, ?_, ?_, ?_, rfl, ?_, ?_, rfl⟩
  · cases hb : net.bind_result "0.0.0.0:0" <;>
      cases hs : net.set_broadcast_result true <;>
      cases hd : net.send_to_result packet.bytes addr <;>
      simp [send_magic_packet_impl, hb, hs, hd]
  · intro h1 h2 h3
    simp [send_magic_packet_impl, h1, h2, h3]
  · cases hb : net.bind_result "0.0.0.0:0" <;>
      cases hs : net.set_broadcast_result true <;>
      cases hd : net.send_to_result packet.bytes addr <;>
      simp [send_magic_packet_impl, hb, hs, hd, is_send_event]
  · cases hb : net.bind_result "0.0.0.0:0" <;>
      cases hs : net.set_broadcast_result true <;>
      cases hd : net.send_to_result packet.bytes addr <;>
      simp [send_magic_packet_impl, hb, hs, hd]
  · cases hb : net.bind_result bindaddr <;>
      cases hs : net.set_broadcast_result true <;>
      cases hd : net.send_to_result packet.bytes addr <;>
      simp [wake_device_impl, hb, hs, hd]
  · cases hb : net.bind_result bindaddr <;>
      cases hs : net.set_broadcast_result true <;>
      cases hd : net.send_to_result packet.bytes addr <;>
      simp [wake_device_impl, hb, hs, hd]

/-- C9 witness: on a network stack where every syscall succeeds, the send
returns `Ok` and the trace is exactly bind, broadcast-enable, one send. -/
theorem c9_send_path_witness :
    (send_magic_packet_impl ⟨fun _ => none, fun _ => none, fun _ _ => none⟩ ⟨[255]⟩
      "255.255.255.255:9").2 = .ok () ∧
    (send_magic_packet_impl ⟨fun _ => none, fun _ => none, fun _ _ => none⟩ ⟨[255]⟩
      "255.255.255.255:9").1 =
      [.bind "0.0.0.0:0", .set_broadcast true, .send_to [255] "255.255.255.255:9"] :=
  ⟨(c9_send_path ⟨fun _ => none, fun _ => none, fun _ _ => none⟩ ⟨[255]⟩
      "255.255.255.255:9" "0.0.0.0:0").1.mpr ⟨rfl, rfl, rfl⟩,
   (c9_send_path ⟨fun _ => none, fun _ => none, fun _ _ => none⟩ ⟨[255]⟩
      "255.255.255.255:9" "0.0.0.0:0").2.1 rfl rfl rfl⟩

/-! ### C3: wrong group count and trailing characters -/

lemma mem_groups_join (sep : Char) :
    ∀ (gs : List (Char × Char)) (c : Char),
      c ∈ groups_join sep gs → c = sep ∨ ∃ p ∈ gs, c = p.1 ∨ c = p.2 := by
  intro gs
  induction gs with
  | nil => intro c hc; simp [groups_join] at hc
  | cons p t ih =>
    intro c hc
    cases t with
    | nil =>
      simp only [groups_join, List.mem_cons, List.not_mem_nil, or_false] at hc
      rcases hc with rfl | rfl
      · exact Or.inr ⟨p, List.mem_cons_self _ _, Or.inl rfl⟩
      · exact Or.inr ⟨p, List.mem_cons_self _ _, Or.inr rfl⟩
    | cons q t' =>
      rw [show groups_join sep (p :: q :: t') = p.1 :: p.2 :: sep :: groups_join sep (q :: t')
        from rfl] at hc
      simp only [List.mem_cons] at hc
      rcases hc with rfl | rfl | rfl | hc
      · exact Or.inr ⟨p, List.mem_cons_self _ _, Or.inl rfl⟩
      · exact Or.inr ⟨p, List.mem_cons_self _ _, Or.inr rfl⟩
      · exact Or.inl rfl
      · rcases ih c hc with hsep | ⟨r, hr, hcr⟩
        · exact Or.inl hsep
        · exact Or.inr ⟨r, List.mem_cons_of_mem _ hr, hcr⟩

lemma from_str_loop_groups_short (orig : List Char) (len : Nat) (sep : Char)
    (hsep : is_supported_separator sep = true) :
    ∀ (gs : List (Char × Char)) (n : Nat),
      (∀ p ∈ gs, is_hex_digit p.1 = true ∧ is_hex_digit p.2 = true) →
      0 < n → gs.length < n →
      from_str_loop orig len n (groups_join sep gs) = .error (.InvalidLength len) := by
  intro gs
  induction gs with
  | nil =>
    intro n _ hn _
    cases n with
    | zero => omega
    | succ m => rfl
  | cons p t ih =>
    intro n hhex hn hlen
    have h1 := (hhex p (List.mem_cons_self _ _)).1
    have h2 := (hhex p (List.mem_cons_self _ _)).2
    cases t with
    | nil =>
      cases n with
      | zero => omega
      | succ m =>
        cases m with
        | zero => simp at hlen
        | succ m' =>
          show from_str_loop orig len (m' + 2) (groups_join sep [p]) = .error (.InvalidLength len)
          simp [groups_join, from_str_loop, hex_ok _ h1, hex_ok _ h2]
    | cons q t' =>
      cases n with
      | zero => omega
      | succ m =>
        cases m with
        | zero => simp at hlen
        | succ m' =>
          show from_str_loop orig len (m' + 2) (groups_join sep (p :: q :: t')) =
            .error (.InvalidLength len)
          rw [show groups_join sep (p :: q :: t') = p.1 :: p.2 :: sep :: groups_join sep (q :: t')
              from rfl,
            from_str_loop_step orig len m' p.1 p.2 sep _ h1 h2 hsep,
            ih (m' + 1) (fun r hr => hhex r (List.mem_cons_of_mem _ hr)) (Nat.succ_pos _)
              (by simp at hlen ⊢; omega)]

lemma from_str_loop_groups_long (orig : List Char) (len : Nat) (sep : Char)
    (hsep : is_supported_separator sep = true) :
    ∀ (n : Nat) (gs : List (Char × Char)),
      (∀ p ∈ gs, is_hex_digit p.1 = true ∧ is_hex_digit p.2 = true) →
      0 < n → n < gs.length →
      from_str_loop orig len n (groups_join sep gs) =
        .ok ((gs.take n).map (fun p => pair_byte p.1 p.2),
             sep :: groups_join sep (gs.drop n)) := by
  intro n
  induction n with
  | zero => intro gs _ h0 _; omega
  | succ m ih =>
    intro gs hhex _ hlen
    cases gs with
    | nil => simp at hlen
    | cons p t =>
      have h1 := (hhex p (List.mem_cons_self _ _)).1
      have h2 := (hhex p (List.mem_cons_self _ _)).2
      cases t with
      | nil => simp at hlen
      | cons q t' =>
        cases m with
        | zero =>
          rw [show groups_join sep (p :: q :: t') = p.1 :: p.2 :: sep :: groups_join sep (q :: t')
              from rfl,
            from_str_loop_two orig len p.1 p.2 _ h1 h2]
          simp
        | succ m' =>
          show from_str_loop orig len (m' + 2) (groups_join sep (p :: q :: t')) = _
          rw [show groups_join sep (p :: q :: t') = p.1 :: p.2 :: sep :: groups_join sep (q :: t')
              from rfl,
            from_str_loop_step orig len m' p.1 p.2 sep _ h1 h2 hsep,
            ih (q :: t') (fun r hr => hhex r (List.mem_cons_of_mem _ hr)) (Nat.succ_pos _)
              (by simp at hlen ⊢; omega)]
          simp

/-- C3 counterexample: for the 5-group input `01:23:45:67:89`, `Mac::from_str`
fails with `InvalidLength(14)` (14 is the byte length of the trimmed input),
not with `InvalidMacAddress` carrying the original string as the claim
states. -/
theorem c3_counterexample :
    Mac.from_str ['0', '1', ':', '2', '3', ':', '4', '5', ':', '6', '7', ':', '8', '9'] =
      .error (.InvalidLength 14) ∧
    Mac.from_str ['0', '1', ':', '2', '3', ':', '4', '5', ':', '6', '7', ':', '8', '9'] ≠
      .error (.InvalidMacAddress
        ['0', '1', ':', '2', '3', ':', '4', '5', ':', '6', '7', ':', '8', '9']) := by
  have h1 : Mac.from_str ['0', '1', ':', '2', '3', ':', '4', '5', ':', '6', '7', ':', '8', '9'] =
      .error (.InvalidLength 14) := rfl
  refine ⟨h1, ?_⟩
  rw [h1]
  intro h
  injection h with h'
  exact absurd h' (by decide)

/-- C3 amended: when the number of separator-delimited two-hex-digit groups
is not exactly 6, or when non-whitespace characters trail the 12th hex digit,
`Mac::from_str` fails with `InvalidLength` carrying the byte length of the
trimmed input (`InvalidMacAddress` is reserved for an unsupported character
in a separator position). -/
theorem c3_wrong_group_count_or_trailing (sep : Char)
    (hsep : is_supported_separator sep = true) :
    (∀ gs : List (Char × Char),
      (∀ p ∈ gs, is_hex_digit p.1 = true ∧ is_hex_digit p.2 = true) →
      gs.length ≠ 6 →
      Mac.from_str (groups_join sep gs) =
        .error (.InvalidLength (utf8_len (groups_join sep gs)))) ∧
    (∀ d0 d1 d2 d3 d4 d5 d6 d7 d8 d9 d10 d11 : Char, ∀ rest : List Char,
      is_hex_digit d0 = true → is_hex_digit d1 = true → is_hex_digit d2 = true →
      is_hex_digit d3 = true → is_hex_digit d4 = true → is_hex_digit d5 = true →
      is_hex_digit d6 = true → is_hex_digit d7 = true → is_hex_digit d8 = true →
      is_hex_digit d9 = true → is_hex_digit d10 = true → is_hex_digit d11 = true →
      rest ≠ [] → (∀ c ∈ rest, rust_is_whitespace c = false) →
      Mac.from_str (d0 :: d1 :: sep :: d2 :: d3 :: sep :: d4 :: d5 :: sep :: d6 :: d7 :: sep ::
        d8 :: d9 :: sep :: d10 :: d11 :: rest) =
        .error (.InvalidLength (utf8_len (d0 :: d1 :: sep :: d2 :: d3 :: sep :: d4 :: d5 :: sep ::
          d6 :: d7 :: sep :: d8 :: d9 :: sep :: d10 :: d11 :: rest)))) := by
  constructor
  · intro gs hgs h6
    have hnws : ∀ c ∈ groups_join sep gs, rust_is_whitespace c = false := by
      intro c hc
      rcases mem_groups_join sep gs c hc with rfl | ⟨p, hp, hc'⟩
      · exact sep_not_whitespace _ hsep
      · rcases hc' with rfl | rfl
        · exact hex_not_whitespace _ (hgs p hp).1
        · exact hex_not_whitespace _ (hgs p hp).2
    simp only [Mac.from_str, rust_trim_of_no_ws _ hnws]
    rcases lt_or_gt_of_ne h6 with hlt | hgt
    · rw [from_str_loop_groups_short _ _ sep hsep gs 6 hgs (by omega) hlt]
    · rw [from_str_loop_groups_long _ _ sep hsep 6 gs hgs (by omega) hgt]
  · intro d0 d1 d2 d3 d4 d5 d6 d7 d8 d9 d10 d11 rest
      hd0 hd1 hd2 hd3 hd4 hd5 hd6 hd7 hd8 hd9 hd10 hd11 hne hrest
    have hnws : ∀ c ∈ (d0 :: d1 :: sep :: d2 :: d3 :: sep :: d4 :: d5 :: sep :: d6 :: d7 :: sep ::
        d8 :: d9 :: sep :: d10 :: d11 :: rest), rust_is_whitespace c = false := by
      intro c hc
      simp only [List.mem_cons] at hc
      rcases hc with rfl|rfl|rfl|rfl|rfl|rfl|rfl|rfl|rfl|rfl|rfl|rfl|rfl|rfl|rfl|rfl|rfl|hc
      · exact hex_not_whitespace _ hd0
      · exact hex_not_whitespace _ hd1
      · exact sep_not_whitespace _ hsep
      · exact hex_not_whitespace _ hd2
      · exact hex_not_whitespace _ hd3
      · exact sep_not_whitespace _ hsep
      · exact hex_not_whitespace _ hd4
      · exact hex_not_whitespace _ hd5
      · exact sep_not_whitespace _ hsep
      · exact hex_not_whitespace _ hd6
      · exact hex_not_whitespace _ hd7
      · exact sep_not_whitespace _ hsep
      · exact hex_not_whitespace _ hd8
      · exact hex_not_whitespace _ hd9
      · exact sep_not_whitespace _ hsep
      · exact hex_not_whitespace _ hd10
      · exact hex_not_whitespace _ hd11
      · exact hrest c hc
    rcases rest with _ | ⟨r, rs⟩
    · exact absurd rfl hne
    · simp only [Mac.from_str, rust_trim_of_no_ws _ hnws]
      rw [from_str_loop_pattern _ _ d0 d1 d2 d3 d4 d5 d6 d7 d8 d9 d10 d11 sep sep sep sep sep
        (r :: rs) hd0 hd1 hd2 hd3 hd4 hd5 hd6 hd7 hd8 hd9 hd10 hd11 hsep hsep hsep hsep hsep]

/-- C3 amended witness: the 5-group input and a 6-group input with a trailing
character both fail with `InvalidLength` of the input's byte length. -/
theorem c3_wrong_group_count_or_trailing_witness :
    Mac.from_str (groups_join ':' [('0', '1'), ('2', '3'), ('4', '5'), ('6', '7'), ('8', '9')]) =
      .error (.InvalidLength (utf8_len
        (groups_join ':' [('0', '1'), ('2', '3'), ('4', '5'), ('6', '7'), ('8', '9')]))) ∧
    Mac.from_str ('0' :: '1' :: ':' :: '2' :: '3' :: ':' :: '4' :: '5' :: ':' :: '6' :: '7' ::
        ':' :: '8' :: '9' :: ':' :: 'a' :: 'b' :: ['z']) =
      .error (.InvalidLength (utf8_len ('0' :: '1' :: ':' :: '2' :: '3' :: ':' :: '4' :: '5' ::
        ':' :: '6' :: '7' :: ':' :: '8' :: '9' :: ':' :: 'a' :: 'b' :: ['z']))) :=
  ⟨(c3_wrong_group_count_or_trailing ':' (by decide)).1
      [('0', '1'), ('2', '3'), ('4', '5'), ('6', '7'), ('8', '9')] (by decide) (by decide),
   (c3_wrong_group_count_or_trailing ':' (by decide)).2
      '0' '1' '2' '3' '4' '5' '6' '7' '8' '9' 'a' 'b' ['z'] (by decide) (by decide) (by decide)
      (by decide) (by decide) (by decide) (by decide) (by decide) (by decide) (by decide)
      (by decide) (by decide) (by decide) (by decide)⟩
